import Mathlib

/-!
A verification development for the webHandler package (Go): a websocket-based
communication and system manager.  Websocket connections and socket handlers
are identified by natural numbers; byte payloads are lists of bytes modelled
as `List Nat`.  Channels are modelled as explicit queues (lists) or, where
only "is the channel nil" matters, as a `Bool`.
-/

namespace WebHandlerModel

/-- Transmitter modes, from transmitter.go.  The order of the values is
essential: the permission check compares magnitudes. -/
def Broadcast : Nat := 0

/-- Mode `Handle`, from transmitter.go. -/
def Handle : Nat := 1

/-- Mode `Socket`, from transmitter.go. -/
def Socket : Nat := 2

/-- The `Transmitter` struct from transmitter.go.  `ws` is the bound
websocket connection (nil pointer becomes `none`), `sh` the bound socket
handler (nil interface becomes `none`), `wt` records whether the outbound
channel `wt chan Transmitter` is non-nil, `msg` the payload (`[]byte`,
nil and empty coincide here), `mode` and `maxMode` the `uint8` mode fields
(their values in the program are 0, 1, 2, so `Nat` carries them exactly). -/
structure Transmitter where
  ws : Option Nat := none
  sh : Option Nat := none
  wt : Bool := false
  msg : List Nat := []
  mode : Nat := 0
  maxMode : Nat := 0
deriving DecidableEq, Repr

/-- `Transmitter.GetModes` from transmitter.go. -/
def GetModes (t : Transmitter) : List Nat :=
  if t.maxMode = Socket then [Broadcast, Handle, Socket]
  else if t.maxMode = Handle then [Broadcast, Handle]
  else [Broadcast]

/-- `Transmitter.Send` from transmitter.go.  The Go method sends a copy of
the receiver on the channel `t.wt`; here the enqueued envelope (if any) is
returned as the second component. -/
def Send (t : Transmitter) (data : List Nat) (mode : Nat) : Bool × Option Transmitter :=
  if t.maxMode < mode then (false, none)
  else if t.wt = false then (false, none)
  else (true, some { t with msg := data, mode := mode })

/-- The `cmdStruct` from private.go: one inbound message together with its
originating handler and websocket. -/
structure cmdStruct where
  msg : List Nat
  h : Nat
  ws : Nat
deriving DecidableEq, Repr

/-- One user-callback invocation performed by the control loop: the calls
`sc.Message`, `m.h.Message`, `sc.Update`, `sh.Update` in private.go. -/
inductive CallbackEvent where
  | cmdMessage (m : List Nat) (h : Nat) (tr : Transmitter)
  | shMessage (h : Nat) (m : List Nat) (tr : Transmitter)
  | cmdUpdate (tr : Transmitter)
  | shUpdate (h : Nat) (tr : Transmitter)
deriving DecidableEq, Repr

/-- The transmitter built for an inbound message in `run` and `runUpdate`
(private.go): `Transmitter\x7bwt: wh.webTransmit, maxMode: Socket, ws: m.ws,
sh: m.h\x7d`. -/
def inboundTr (m : cmdStruct) : Transmitter :=
  { wt := true, maxMode := Socket, ws := some m.ws, sh := some m.h }

/-- The callback sequence the control loop performs for one inbound message
(`run` and `runUpdate` in private.go): `sc.Message(m.msg, m.h, tr)` then
`m.h.Message(m.msg, tr)`, with the same transmitter. -/
def processInbound (m : cmdStruct) : List CallbackEvent :=
  [ .cmdMessage m.msg m.h (inboundTr m), .shMessage m.h m.msg (inboundTr m) ]

/-- The transmitter built for `sc.Update` on a tick in `runUpdate`
(private.go): `Transmitter\x7bwt: wh.webTransmit, maxMode: Broadcast\x7d`. -/
def tickTrB : Transmitter := { wt := true, maxMode := Broadcast }

/-- The transmitter built for `sh.Update` on a tick in `runUpdate`
(private.go): `Transmitter\x7bwt: wh.webTransmit, maxMode: Handle, sh: sh\x7d`. -/
def tickTrH (sh : Nat) : Transmitter :=
  { wt := true, maxMode := Handle, sh := some sh }

/-- The callback sequence the control loop performs for one ticker tick
(`runUpdate` in private.go): `sc.Update` followed by `sh.Update` for each
handler of the slice `sl`, in the slice's order. -/
def processTick (sl : List Nat) : List CallbackEvent :=
  .cmdUpdate tickTrB :: sl.map (fun sh => .shUpdate sh (tickTrH sh))

/-- One input the control loop's select can receive: an inbound message from
`wh.webReceive`, or a ticker tick. -/
inductive LoopInput where
  | inbound (m : cmdStruct)
  | tick
deriving DecidableEq, Repr

/-- The callback events one loop-select arm produces.  `handleWebsocketReceive`
(private.go) runs `runUpdate` when `rate > 0` and `run` otherwise; `run` has
no ticker, so with `rate ≤ 0` a tick produces nothing. -/
def processInput (rate : Int) (sl : List Nat) : LoopInput → List CallbackEvent
  | .inbound m => processInbound m
  | .tick => if 0 < rate then processTick sl else []

/-- The full callback trace of the control loop over a sequence of inputs,
one select arm at a time (private.go, `run`/`runUpdate`). -/
def loopTrace (rate : Int) (sl : List Nat) (inputs : List LoopInput) : List CallbackEvent :=
  inputs.flatMap (processInput rate sl)

/-- The set of connections a single outbound envelope is written to by
`handleWebsocketSend` (private.go), given the registry `wh.clients` at the
moment of dispatch (a connection/handler association list with distinct
connection keys).  The Go `switch m.mode` has cases `Socket`, `Handle`,
`Broadcast` and writes nothing for any other value; a nil `m.ws` or nil
`m.sh` matches no registered entry. -/
def dispatchTargets (m : Transmitter) (clients : List (Nat × Nat)) : List Nat :=
  if m.mode = Socket then
    match m.ws with
    | some w => if clients.any (fun p => p.1 == w) then [w] else []
    | none => []
  else if m.mode = Handle then
    (clients.filter (fun p => m.sh == some p.2)).map (fun p => p.1)
  else if m.mode = Broadcast then
    clients.map (fun p => p.1)
  else []

/-- The `http.HandlerFunc` closure built by `makeConnectHandler`
(private.go): it captures the socket handler and the message timeout and
calls `handleConnection` with them. -/
structure ConnectHandlerFn where
  sh : Nat
  timeout : Int
deriving DecidableEq, Repr

/-- `makeConnectHandler` from private.go. -/
def makeConnectHandler (sh : Nat) (timeout : Int) : ConnectHandlerFn :=
  { sh := sh, timeout := timeout }

/-- The user-supplied `SystemCommander` (webHandler.go), as seen by
`InitWebHandler`: the outcome of `Start` and the two configuration values. -/
structure CommanderModel where
  startErr : Option String
  updateFrequency : Int
  messageTimeout : Int

/-- The observable effects of `InitWebHandler` (public.go), in order:
calling `sc.Start`, reading `sc.MessageTimeout()`, spawning
`handleWebsocketSend`, reading `sc.UpdateFrequency()`, spawning
`handleWebsocketReceive`. -/
inductive InitEffect where
  | startCalled
  | messageTimeoutRead
  | spawnSend
  | updateFrequencyRead
  | spawnReceive
deriving DecidableEq, Repr

/-- The successfully constructed `WebHandler`, as far as the claims need it:
the map `wh.wFuncs` (as an association list in the handler map's iteration
order), the slice `sl` of socket handlers, and the locked-in update rate. -/
structure WHInit where
  wFuncs : List (String × ConnectHandlerFn)
  sl : List Nat
  rate : Int
deriving DecidableEq, Repr

/-- `InitWebHandler` from public.go.  `hm` is the handler map, given as an
association list in its (unspecified) iteration order, with distinct keys.
The transmitter map `tm` passed to `Start` is built first; if `sc.Start`
returns an error the constructor returns `nil, err` at once, so the only
effect is the `Start` call itself.  Otherwise `sc.MessageTimeout()` is read,
the connect handlers are built, and the two goroutines are spawned with
`sc.UpdateFrequency()` read as the second spawn's argument. -/
def InitWebHandler (sc : CommanderModel) (hm : List (String × Nat)) :
    Except String WHInit × List InitEffect :=
  match sc.startErr with
  | some e => (.error e, [.startCalled])
  | none =>
    let timeout := sc.messageTimeout
    (.ok { wFuncs := hm.map (fun p => (p.1, makeConnectHandler p.2 timeout)),
           sl := hm.map (fun p => p.2),
           rate := sc.updateFrequency },
     [.startCalled, .messageTimeoutRead, .spawnSend, .updateFrequencyRead, .spawnReceive])

/-- `GetWebFunc` from public.go.  A Go map lookup on a missing key yields the
zero value, a nil `http.HandlerFunc`, modelled as `none`. -/
def GetWebFunc (wh : WHInit) (s : String) : Option ConnectHandlerFn :=
  (wh.wFuncs.find? (fun p => p.1 == s)).map (fun p => p.2)

/-- Outcome of the hand-off select in `handleConnection` (private.go): the
message is accepted by `wh.webReceive` (delivered), the `time.After(timeout)`
timer fires first (dropped), the `wh.exitReceive` stop signal fires first
(the reader breaks its loop: exited), or, with no timeout and no other case
ever ready, the select blocks forever.  The `exited` arm is present in the
source but can never fire while a hand-off is pending: `Shutdown`
(public.go) runs `wh.wsWG.Wait()` before `close(wh.exitReceive)`, and each
reader's deferred `wsWG.Done()` runs only after its loop, including any
pending hand-off, has finished; `handoff_drop_iff` proves this below from
the ordering hypothesis. -/
inductive HandoffOutcome where
  | delivered
  | dropped
  | exited
  | blocked
deriving DecidableEq, Repr

/-- `firesBy a b`: the event at time `a` happens, and no later than the event
at time `b` (`none` means the event never happens). -/
def firesBy (a b : Option Nat) : Bool :=
  match a, b with
  | none, _ => false
  | some _, none => true
  | some x, some y => x ≤ y

/-- The hand-off select of `handleConnection` (private.go).  `qAt` is the
time at which `wh.webReceive` would accept the message (`none`: never),
`eAt` the time at which `wh.exitReceive` is closed (`none`: never).  With
`timeout > 0` the select also races `time.After(timeout)`; with
`timeout ≤ 0` there is no timer case.  Go resolves a tie between ready
cases randomly; this model resolves ties in the fixed order delivered,
dropped, exited. -/
def handoff (timeout : Int) (qAt eAt : Option Nat) : HandoffOutcome :=
  let tAt : Option Nat := if 0 < timeout then some timeout.toNat else none
  if firesBy qAt tAt && firesBy qAt eAt then .delivered
  else if firesBy tAt eAt then .dropped
  else if eAt.isSome then .exited
  else .blocked

/-- The time at which a pending hand-off select resolves through its
non-exit arms: the queue accept or, when `timeout > 0`, the
`time.After(timeout)` timer, whichever is first; with `timeout ≤ 0` and the
queue never ready it never resolves (`none`).  This is when the reader can
proceed past the select, hence the earliest moment its deferred
`wsWG.Done()` (private.go) can run; `Shutdown` (public.go) calls
`wh.wsWG.Wait()` before `close(wh.exitReceive)`, so the stop signal can be
closed no earlier than this resolution time. -/
def handoffResolvesAt (timeout : Int) : Option Nat → Option Nat
  | some a => if 0 < timeout then some (min a timeout.toNat) else some a
  | none => if 0 < timeout then some timeout.toNat else none

/-- The `WebHandler` state that `Shutdown` (public.go) manipulates: which of
the channels `doneConn`, `exitReceive`, `exitTransmit` have been closed, the
registry `wh.clients`, how many times `sc.Stop()` has run, and whether the
control-loop goroutine is still in its select loop. -/
structure WHState where
  doneConnClosed : Bool
  exitRecvClosed : Bool
  exitTransClosed : Bool
  clients : List (Nat × Nat)
  stopCalls : Nat
  loopRunning : Bool
deriving DecidableEq, Repr

/-- `Shutdown` from public.go.  A second call reaches `close(wh.doneConn)`
with the channel already closed, which panics (modelled as `.error`).
Otherwise: every client is closed and the registry replaced by a fresh empty
map; `close(wh.exitReceive)` makes the control loop break, whose deferred
function runs `sc.Stop()` exactly once and closes `finishedExit`; `Shutdown`
waits on `finishedExit` and then closes `exitTransmit`, so the returned
state already reflects the loop having stopped and `Stop` having run.
`shutdownState` is that resulting state. -/
def shutdownState (s : WHState) : WHState :=
  { doneConnClosed := true,
    exitRecvClosed := true,
    exitTransClosed := true,
    clients := [],
    stopCalls := s.stopCalls + 1,
    loopRunning := false }

/-- `Shutdown` from public.go.  A second call reaches `close(wh.doneConn)`
with the channel already closed, which panics (modelled as `.error`). -/
def Shutdown (s : WHState) : Except String WHState :=
  if s.doneConnClosed then .error "panic: close of closed channel"
  else .ok (shutdownState s)

/-- Callback events the control loop can still produce from a given handler
state: once the loop has broken out of `run`/`runUpdate` (private.go), no
select arm runs again, so no callback is ever invoked. -/
def loopTraceFrom (s : WHState) (rate : Int) (sl : List Nat)
    (inputs : List LoopInput) : List CallbackEvent :=
  if s.loopRunning then loopTrace rate sl inputs else []

/-- Where the single control-loop goroutine stands: waiting in its select
(`idle`), executing a callback sequence with `k` abstract body steps left
(`inSeq k`), or out of the loop (`stopped`).  Callback call sites exist only
in `run`/`runUpdate` (private.go), executed by this one goroutine. -/
inductive LoopPhase where
  | idle
  | inSeq (k : Nat)
  | stopped
deriving DecidableEq, Repr

/-- A global state of the running system: the control-loop phase, the
inbound queue `wh.webReceive`, and an instrumentation counter `active`
recording how many callback-sequence bodies are executing right now. -/
structure SysState where
  phase : LoopPhase
  inbound : List cmdStruct
  active : Nat
deriving DecidableEq, Repr

/-- The initial state after `InitWebHandler`: the loop waits in its select,
the queue is empty, nothing executes. -/
def initSys : SysState := { phase := .idle, inbound := [], active := 0 }

/-- One interleaved step of the system (private.go).  Reader goroutines
(`handleConnection`) may enqueue at any time; the control loop, being one
sequential goroutine, can begin a callback sequence only from its select
(`idle`), takes abstract body steps, and returns to the select when the
sequence ends; a tick sequence needs `rate > 0` (`runUpdate`); the stop
signal is consumed from the select.  `active` is incremented when a sequence
body begins and decremented when it ends. -/
inductive Step (rate : Int) : SysState → SysState → Prop where
  | enqueue (s : SysState) (m : cmdStruct) :
      Step rate s { s with inbound := s.inbound ++ [m] }
  | beginMsgSeq (s : SysState) (m : cmdStruct) (rest : List cmdStruct) (k : Nat) :
      s.phase = .idle → s.inbound = m :: rest →
      Step rate s { s with phase := .inSeq k, inbound := rest, active := s.active + 1 }
  | beginTickSeq (s : SysState) (k : Nat) :
      s.phase = .idle → 0 < rate →
      Step rate s { s with phase := .inSeq k, active := s.active + 1 }
  | bodyStep (s : SysState) (k : Nat) :
      s.phase = .inSeq (k + 1) →
      Step rate s { s with phase := .inSeq k }
  | endSeq (s : SysState) :
      s.phase = .inSeq 0 →
      Step rate s { s with phase := .idle, active := s.active - 1 }
  | stopLoop (s : SysState) :
      s.phase = .idle →
      Step rate s { s with phase := .stopped }

/-- Reachability under any interleaving of steps. -/
inductive Reachable (rate : Int) : SysState → SysState → Prop where
  | refl (s : SysState) : Reachable rate s s
  | tail {s t u : SysState} : Reachable rate s t → Step rate t u → Reachable rate s u

/-- How many callback-sequence bodies a loop phase has in flight. -/
def phaseActive : LoopPhase → Nat
  | .inSeq _ => 1
  | _ => 0

/-! ## Theorems -/

lemma loopTrace_append (rate : Int) (sl : List Nat) (l1 l2 : List LoopInput) :
    loopTrace rate sl (l1 ++ l2) = loopTrace rate sl l1 ++ loopTrace rate sl l2 := by
  simp [loopTrace]

/-- C2: `t.Send(data, m)` returns false and enqueues nothing exactly when the
requested mode exceeds the ceiling `maxMode` or no outbound channel is bound;
otherwise it enqueues exactly one envelope carrying `data` at mode `m` and
returns true, and every envelope ever enqueued has a mode no greater than the
ceiling it was authorized under. -/
theorem send_mode_gate (t : Transmitter) (d : List Nat) (m : Nat) :
    ((Send t d m).1 = false ∧ (Send t d m).2 = none ↔ t.maxMode < m ∨ t.wt = false) ∧
    (¬ (t.maxMode < m ∨ t.wt = false) →
      (Send t d m).1 = true ∧ (Send t d m).2 = some { t with msg := d, mode := m }) ∧
    (∀ env, (Send t d m).2 = some env → env.mode ≤ t.maxMode) := by
  refine ⟨?_, ?_, ?_⟩
  · by_cases h1 : t.maxMode < m
    · simp [Send, h1]
    · by_cases h2 : t.wt = false <;> simp [Send, h1, h2]
  · intro hn
    obtain ⟨h1, h2⟩ := not_or.mp hn
    simp [Send, h1, h2]
  · intro env henv
    by_cases h1 : t.maxMode < m
    · simp [Send, h1] at henv
    · by_cases h2 : t.wt = false
      · simp [Send, h1, h2] at henv
      · simp [Send, h1, h2] at henv
        rw [← henv]
        simpa using Nat.le_of_not_lt h1

theorem send_mode_gate_witness :
    ((Send { ws := some 5, sh := some 7, wt := true, maxMode := 2 } [1] 1).1 = true ∧
      (Send { ws := some 5, sh := some 7, wt := true, maxMode := 2 } [1] 1).2 =
        some { ws := some 5, sh := some 7, wt := true, msg := [1], mode := 1, maxMode := 2 }) :=
  (send_mode_gate { ws := some 5, sh := some 7, wt := true, maxMode := 2 } [1] 1).2.1
    (by decide)

/-- C9: `Send` has a value receiver, so the transmitter itself is unchanged;
the envelope enqueued on success is a copy of `t` in which only the `msg` and
`mode` fields differ: its bound websocket, bound handler, outbound channel
and ceiling are exactly those of `t`. -/
theorem send_frame_effect (t : Transmitter) (d : List Nat) (m : Nat) (env : Transmitter)
    (h : (Send t d m).2 = some env) :
    env.ws = t.ws ∧ env.sh = t.sh ∧ env.wt = t.wt ∧ env.maxMode = t.maxMode ∧
    env.msg = d ∧ env.mode = m := by
  by_cases h1 : t.maxMode < m
  · simp [Send, h1] at h
  · by_cases h2 : t.wt = false
    · simp [Send, h1, h2] at h
    · simp [Send, h1, h2] at h
      rw [← h]
      simp_all

/-- A concrete transmitter for exercising `send_frame_effect`. -/
def tFrameEx : Transmitter := { ws := some 3, sh := some 4, wt := true, maxMode := 2 }

/-- The envelope `Send tFrameEx [9] 0` enqueues. -/
def tFrameEnv : Transmitter :=
  { ws := some 3, sh := some 4, wt := true, msg := [9], mode := 0, maxMode := 2 }

theorem send_frame_effect_witness :
    (Send tFrameEx [9] 0).2 = some tFrameEnv ∧
    (tFrameEnv.ws = tFrameEx.ws ∧ tFrameEnv.sh = tFrameEx.sh ∧
      tFrameEnv.wt = tFrameEx.wt ∧ tFrameEnv.maxMode = tFrameEx.maxMode ∧
      tFrameEnv.msg = [9] ∧ tFrameEnv.mode = 0) :=
  ⟨by decide, send_frame_effect tFrameEx [9] 0 tFrameEnv (by decide)⟩

/-- C4: for every inbound message dequeued by the control loop, the loop
invokes `sc.Message(m.msg, m.h, tr)` and then `m.h.Message(m.msg, tr)` with
the very same transmitter `tr`, whose ceiling is `Socket` and which is bound
to the originating handler and connection; in the loop's whole callback
trace, these two events are adjacent, with no other callback between them. -/
theorem inbound_callback_pair (m : cmdStruct) :
    processInbound m =
      [ .cmdMessage m.msg m.h (inboundTr m), .shMessage m.h m.msg (inboundTr m) ] ∧
    (inboundTr m).maxMode = Socket ∧ (inboundTr m).sh = some m.h ∧
    (inboundTr m).ws = some m.ws ∧ (inboundTr m).wt = true ∧
    ∀ rate sl pre post,
      loopTrace rate sl (pre ++ .inbound m :: post) =
        loopTrace rate sl pre ++ processInbound m ++ loopTrace rate sl post := by
  refine ⟨rfl, rfl, rfl, rfl, rfl, ?_⟩
  intro rate sl pre post
  rw [show LoopInput.inbound m :: post = [LoopInput.inbound m] ++ post from rfl,
    ← List.append_assoc, loopTrace_append, loopTrace_append]
  simp [loopTrace, processInput]

/-- C5: when the update rate is positive the loop runs `runUpdate`, and a
ticker tick first invokes `sc.Update` with a transmitter of ceiling
`Broadcast` bound to no handler and no connection, then invokes `sh.Update`
once for each handler of the slice `sl` (whose order came from a Go map
iteration and is unspecified) with a transmitter of ceiling `Handle` bound
to that handler and no connection. -/
theorem tick_callback_round (rate : Int) (sl : List Nat) (hr : 0 < rate) :
    processInput rate sl .tick =
      .cmdUpdate tickTrB :: sl.map (fun sh => .shUpdate sh (tickTrH sh)) ∧
    tickTrB.maxMode = Broadcast ∧ tickTrB.sh = none ∧ tickTrB.ws = none ∧
    ∀ sh, (tickTrH sh).maxMode = Handle ∧ (tickTrH sh).sh = some sh ∧
      (tickTrH sh).ws = none := by
  exact ⟨by simp [processInput, processTick, hr], rfl, rfl, rfl,
    fun sh => ⟨rfl, rfl, rfl⟩⟩

theorem tick_callback_round_witness :
    (0 : Int) < 1 ∧ processInput 1 [4] LoopInput.tick =
      [CallbackEvent.cmdUpdate tickTrB, CallbackEvent.shUpdate 4 (tickTrH 4)] := by
  refine ⟨by decide, ?_⟩
  have h := (tick_callback_round 1 [4] (by decide)).1
  simpa using h

/-- C8: if `sc.Start` returns a non-nil error, `InitWebHandler` returns
`nil` and that same error, and construction aborts entirely: the only
observed effect is the `Start` call itself, so neither goroutine is spawned
and neither `MessageTimeout` nor `UpdateFrequency` is ever read. -/
theorem init_abort_on_start_error (sc : CommanderModel) (hm : List (String × Nat))
    (e : String) (h : sc.startErr = some e) :
    (InitWebHandler sc hm).1 = .error e ∧
    (InitWebHandler sc hm).2 = [.startCalled] ∧
    InitEffect.spawnSend ∉ (InitWebHandler sc hm).2 ∧
    InitEffect.spawnReceive ∉ (InitWebHandler sc hm).2 ∧
    InitEffect.messageTimeoutRead ∉ (InitWebHandler sc hm).2 ∧
    InitEffect.updateFrequencyRead ∉ (InitWebHandler sc hm).2 := by
  simp [InitWebHandler, h]

theorem init_abort_on_start_error_witness :
    (CommanderModel.mk (some "boom") 3 4).startErr = some "boom" ∧
    (InitWebHandler (CommanderModel.mk (some "boom") 3 4) [("a", 1)]).1 =
      .error "boom" ∧
    (InitWebHandler (CommanderModel.mk (some "boom") 3 4) [("a", 1)]).2 =
      [.startCalled] :=
  ⟨rfl, (init_abort_on_start_error (CommanderModel.mk (some "boom") 3 4) [("a", 1)]
      "boom" rfl).1,
    (init_abort_on_start_error (CommanderModel.mk (some "boom") 3 4) [("a", 1)]
      "boom" rfl).2.1⟩

/-- C3: an outbound envelope dispatched by `handleWebsocketSend` is written
to every connection registered at the moment of dispatch when its mode is
`Broadcast`; exactly to the registered connections whose bound handler
equals the envelope's handler when its mode is `Handle`; and exactly to its
bound connection, provided that connection is still registered (a no-op
otherwise), when its mode is `Socket`. -/
theorem dispatch_scope (m : Transmitter) (clients : List (Nat × Nat)) (c : Nat) :
    (m.mode = Broadcast → (c ∈ dispatchTargets m clients ↔ ∃ h, (c, h) ∈ clients)) ∧
    (m.mode = Handle →
      (c ∈ dispatchTargets m clients ↔ ∃ h, (c, h) ∈ clients ∧ m.sh = some h)) ∧
    (m.mode = Socket →
      (c ∈ dispatchTargets m clients ↔ m.ws = some c ∧ ∃ h, (c, h) ∈ clients)) := by
  refine ⟨?_, ?_, ?_⟩ <;> intro hmode
  · simp only [dispatchTargets, hmode]
    norm_num [Broadcast, Handle, Socket]
  · simp only [dispatchTargets, hmode]
    norm_num [Broadcast, Handle, Socket]
  · simp only [dispatchTargets, hmode]
    norm_num [Broadcast, Handle, Socket]
    cases hws : m.ws with
    | none => simp
    | some w =>
      by_cases hreg : clients.any (fun p => p.1 == w)
      · simp only [hreg, if_pos]
        simp only [List.any_eq_true, beq_iff_eq] at hreg
        obtain ⟨⟨x, y⟩, hxy, hx⟩ := hreg
        simp only [List.mem_singleton, Option.some_inj]
        constructor
        · rintro hc
          subst hc
          subst hx
          exact ⟨rfl, ⟨y, hxy⟩⟩
        · rintro ⟨hwc, _⟩
          exact hwc.symm
      · simp only [if_neg hreg]
        simp only [List.any_eq_true, beq_iff_eq, not_exists, not_and] at hreg
        simp only [List.not_mem_nil, false_iff, not_and, Option.some_inj]
        rintro hwc ⟨h, hmem⟩
        exact hreg (c, h) hmem hwc.symm

theorem dispatch_scope_witness :
    ({ wt := true, mode := 0, maxMode := 0 } : Transmitter).mode = Broadcast ∧
    (1 ∈ dispatchTargets { wt := true, mode := 0, maxMode := 0 } [(1, 2)] ↔
      ∃ h, (1, h) ∈ [(1, 2)]) :=
  ⟨rfl, (dispatch_scope { wt := true, mode := 0, maxMode := 0 } [(1, 2)] 1).1 rfl⟩

lemma reachable_active_eq (rate : Int) (s : SysState)
    (h : Reachable rate initSys s) : s.active = phaseActive s.phase := by
  induction h with
  | refl => rfl
  | tail _ hs ih =>
    cases hs with
    | enqueue m => simpa using ih
    | beginMsgSeq m rest k hp hq => simp_all [phaseActive]
    | beginTickSeq k hp hr => simp_all [phaseActive]
    | bodyStep k hp => simp_all [phaseActive]
    | endSeq hp => simp_all [phaseActive]
    | stopLoop hp => simp_all [phaseActive]

/-- C1: in every reachable state of the system, under any interleaving of
reader enqueues and control-loop steps across any number of connections, at
most one callback-sequence body (one Message pair or one Update round) is
executing: the only call sites of user callbacks are in `run`/`runUpdate`
(private.go), executed by the single control-loop goroutine, which begins a
new sequence only from its select and only after the previous one ended. -/
theorem single_callback_sequence (rate : Int) (s : SysState)
    (h : Reachable rate initSys s) : s.active ≤ 1 := by
  rw [reachable_active_eq rate s h]
  cases s.phase <;> simp [phaseActive]

theorem single_callback_sequence_witness :
    Reachable 1 initSys initSys ∧ initSys.active ≤ 1 :=
  ⟨Reachable.refl initSys, single_callback_sequence 1 initSys (Reachable.refl initSys)⟩

/-- C6: a message read from a connection is dropped (never delivered to the
control loop) iff `MessageTimeout > 0` and the hand-off blocks longer than
the timeout (the queue accepts only strictly after `timeout`, or never);
with `MessageTimeout ≤ 0` the hand-off blocks indefinitely and no inbound
message is ever dropped, under any queue depth.  The hypothesis `hsync`
encodes the shutdown ordering of public.go and private.go: `wh.wsWG.Wait()`
precedes `close(wh.exitReceive)` and each reader runs its deferred
`wsWG.Done()` only after its pending hand-off resolved, so `eAt` can be no
earlier than `handoffResolvesAt`; under it the `exited` arm never wins and
a pending message survives shutdown into the queue. -/
theorem handoff_drop_iff (timeout : Int) (qAt eAt : Option Nat)
    (hsync : ∀ e, eAt = some e →
      ∃ r, handoffResolvesAt timeout qAt = some r ∧ r ≤ e) :
    (handoff timeout qAt eAt = HandoffOutcome.dropped ↔
      0 < timeout ∧ (∀ a, qAt = some a → timeout.toNat < a)) ∧
    (timeout ≤ 0 →
      handoff timeout qAt eAt ≠ HandoffOutcome.dropped ∧
      handoff timeout qAt eAt ≠ HandoffOutcome.exited ∧
      (∀ a, qAt = some a → handoff timeout qAt eAt = HandoffOutcome.delivered) ∧
      (qAt = none → handoff timeout qAt eAt = HandoffOutcome.blocked)) := by
  by_cases ht : 0 < timeout
  · refine ⟨?_, fun hle => absurd ht (not_lt.mpr hle)⟩
    rcases qAt with _ | a
    · rcases eAt with _ | b
      · simp [handoff, firesBy, ht]
      · obtain ⟨r, hr, hrb⟩ := hsync b rfl
        simp [handoffResolvesAt, ht] at hr
        have hTb : timeout.toNat ≤ b := by omega
        simp [handoff, firesBy, ht, hTb]
    · rcases eAt with _ | b
      · by_cases ha : a ≤ timeout.toNat
        · simp [handoff, firesBy, ht, ha]
        · simp [handoff, firesBy, ht, ha]
          omega
      · obtain ⟨r, hr, hrb⟩ := hsync b rfl
        simp [handoffResolvesAt, ht] at hr
        by_cases ha : a ≤ timeout.toNat
        · have hab : a ≤ b := by omega
          simp [handoff, firesBy, ht, ha, hab]
        · have hTb : timeout.toNat ≤ b := by omega
          simp [handoff, firesBy, ht, ha, hTb]
          omega
  · have hmain : handoff timeout qAt eAt ≠ HandoffOutcome.dropped ∧
        handoff timeout qAt eAt ≠ HandoffOutcome.exited ∧
        (∀ a, qAt = some a → handoff timeout qAt eAt = HandoffOutcome.delivered) ∧
        (qAt = none → handoff timeout qAt eAt = HandoffOutcome.blocked) := by
      rcases qAt with _ | a
      · rcases eAt with _ | b
        · simp [handoff, firesBy, ht]
        · obtain ⟨r, hr, _⟩ := hsync b rfl
          simp [handoffResolvesAt, ht] at hr
      · rcases eAt with _ | b
        · simp [handoff, firesBy, ht]
        · obtain ⟨r, hr, hrb⟩ := hsync b rfl
          simp [handoffResolvesAt, ht] at hr
          have hab : a ≤ b := by omega
          simp [handoff, firesBy, ht, hab]
    exact ⟨⟨fun hd => absurd hd hmain.1, fun hc => absurd hc.1 ht⟩, fun _ => hmain⟩

theorem handoff_drop_iff_witness :
    (∀ e, (some 5 : Option Nat) = some e →
      ∃ r, handoffResolvesAt 1 (some 3) = some r ∧ r ≤ e) ∧
    handoff 1 (some 3) (some 5) = HandoffOutcome.dropped := by
  have hsync : ∀ e, (some 5 : Option Nat) = some e →
      ∃ r, handoffResolvesAt 1 (some 3) = some r ∧ r ≤ e := by
    intro e he
    cases he
    exact ⟨1, rfl, by norm_num⟩
  refine ⟨hsync, ?_⟩
  exact ((handoff_drop_iff 1 (some 3) (some 5) hsync).1).mpr
    ⟨by norm_num, fun a ha => by cases ha; norm_num⟩

/-- C7: a first call to `Shutdown` (public.go) succeeds; afterwards the
registry `wh.clients` is empty, `sc.Stop()` has run exactly once (the
control loop broke out of its select and ran its deferred function), and the
stopped loop can never again produce a Message or Update callback; a second
call reaches `close(wh.doneConn)` on a closed channel and panics instead of
returning normally. -/
theorem shutdown_protocol (s : WHState) (h1 : s.doneConnClosed = false)
    (h2 : s.stopCalls = 0) :
    Shutdown s = .ok (shutdownState s) ∧
    (shutdownState s).clients = [] ∧
    (shutdownState s).stopCalls = 1 ∧
    (∀ rate sl inputs, loopTraceFrom (shutdownState s) rate sl inputs = []) ∧
    Shutdown (shutdownState s) = .error "panic: close of closed channel" := by
  refine ⟨by simp [Shutdown, h1], rfl, by simp [shutdownState, h2], ?_,
    by simp [Shutdown, shutdownState]⟩
  intro rate sl inputs
  simp [loopTraceFrom, shutdownState]

theorem shutdown_protocol_witness :
    (WHState.mk false false false [(1, 2)] 0 true).doneConnClosed = false ∧
    (WHState.mk false false false [(1, 2)] 0 true).stopCalls = 0 ∧
    Shutdown (WHState.mk false false false [(1, 2)] 0 true) =
      .ok (shutdownState (WHState.mk false false false [(1, 2)] 0 true)) ∧
    (shutdownState (WHState.mk false false false [(1, 2)] 0 true)).clients = [] ∧
    (shutdownState (WHState.mk false false false [(1, 2)] 0 true)).stopCalls = 1 ∧
    loopTraceFrom (shutdownState (WHState.mk false false false [(1, 2)] 0 true))
      1 [2] [LoopInput.tick] = [] ∧
    Shutdown (shutdownState (WHState.mk false false false [(1, 2)] 0 true)) =
      .error "panic: close of closed channel" := by
  have h := shutdown_protocol (WHState.mk false false false [(1, 2)] 0 true) rfl rfl
  exact ⟨rfl, rfl, h.1, h.2.1, h.2.2.1, h.2.2.2.1 1 [2] [LoopInput.tick], h.2.2.2.2⟩

lemma find_key_of_mem {β : Type} (l : List (String × β))
    (hnd : (l.map Prod.fst).Nodup) (s : String) (b : β) (hmem : (s, b) ∈ l) :
    l.find? (fun p => p.1 == s) = some (s, b) := by
  induction l with
  | nil => cases hmem
  | cons a t ih =>
    rcases List.mem_cons.mp hmem with h | h
    · rw [← h]
      exact List.find?_cons_of_pos _ (by simp)
    · have hd := List.nodup_cons.mp hnd
      have hkey : s ∈ t.map Prod.fst := List.mem_map.mpr ⟨(s, b), h, rfl⟩
      have hne : ¬ a.1 = s := fun he => hd.1 (he ▸ hkey)
      rw [List.find?_cons_of_neg _ (by simpa using hne)]
      exact ih hd.2 h

/-- C10: after a successful `InitWebHandler`, `GetWebFunc s` (public.go)
returns the non-nil connect handler built by `makeConnectHandler` for every
name `s` that is a key of the handler map, and returns nil (the Go zero
value of a map lookup on a missing key) for every other string. -/
theorem getWebFunc_lookup (sc : CommanderModel) (hm : List (String × Nat))
    (wh : WHInit) (hnd : (hm.map Prod.fst).Nodup)
    (hok : (InitWebHandler sc hm).1 = .ok wh) :
    (∀ s h, (s, h) ∈ hm →
      GetWebFunc wh s = some (makeConnectHandler h sc.messageTimeout)) ∧
    (∀ s, s ∉ hm.map Prod.fst → GetWebFunc wh s = none) := by
  cases hse : sc.startErr with
  | some e => simp [InitWebHandler, hse] at hok
  | none =>
    have hwf : wh.wFuncs =
        hm.map (fun p => (p.1, makeConnectHandler p.2 sc.messageTimeout)) := by
      simp [InitWebHandler, hse] at hok
      rw [← hok]
    have hmapfst : (hm.map
        (fun p => (p.1, makeConnectHandler p.2 sc.messageTimeout))).map Prod.fst =
        hm.map Prod.fst := by
      simp [List.map_map, Function.comp]
    constructor
    · intro s h hmem
      have hnd2 : ((hm.map
          (fun p => (p.1, makeConnectHandler p.2 sc.messageTimeout))).map
            Prod.fst).Nodup := by
        rw [hmapfst]; exact hnd
      have hmem2 : (s, makeConnectHandler h sc.messageTimeout) ∈
          hm.map (fun p => (p.1, makeConnectHandler p.2 sc.messageTimeout)) :=
        List.mem_map.mpr ⟨(s, h), hmem, rfl⟩
      simp [GetWebFunc, hwf, find_key_of_mem _ hnd2 s _ hmem2]
    · intro s hs
      have hnotkey : s ∉ (hm.map
          (fun p => (p.1, makeConnectHandler p.2 sc.messageTimeout))).map Prod.fst := by
        rw [hmapfst]; exact hs
      have hfind : (hm.map
          (fun p => (p.1, makeConnectHandler p.2 sc.messageTimeout))).find?
            (fun p => p.1 == s) = none := by
        apply List.find?_eq_none.mpr
        intro x hx hbeq
        exact hnotkey (List.mem_map.mpr ⟨x, hx, by simpa using hbeq⟩)
      simp [GetWebFunc, hwf, hfind]

/-- A concrete successful construction for exercising `getWebFunc_lookup`. -/
def whEx : WHInit :=
  { wFuncs := [("a", makeConnectHandler 1 7), ("b", makeConnectHandler 2 7)],
    sl := [1, 2], rate := 0 }

theorem getWebFunc_lookup_witness :
    ([("a", 1), ("b", 2)].map (Prod.fst (β := Nat))).Nodup ∧
    (InitWebHandler (CommanderModel.mk none 0 7) [("a", 1), ("b", 2)]).1 = .ok whEx ∧
    GetWebFunc whEx "a" = some (makeConnectHandler 1 7) ∧
    GetWebFunc whEx "c" = none := by
  have h := getWebFunc_lookup (CommanderModel.mk none 0 7) [("a", 1), ("b", 2)]
    whEx (by decide) (by rfl)
  refine ⟨by decide, by rfl, h.1 "a" 1 (by decide), h.2 "c" (by decide)⟩

end WebHandlerModel
